import Mathlib

/-!
Verification development for the ManageRide ride-listing API
(`src/rides/models.py`, `src/rides/views.py`, `src/rides/serializers.py`).

The Django/DRF request pipeline is shallowly embedded:
* model rows become Lean structures (timestamps are integers counted in
  seconds; `FloatField` values are idealised as exact rationals, with the
  IEEE special values infinity and NaN kept symbolic);
* the query-set is a record of the filters, annotation parameters, prefetch
  threshold and ordering keys accumulated by `get_queryset` and the
  configured filter backends; executing it sorts the filtered rows of the
  store with a stable sort over storage order (one realisable behaviour of
  SQL `ORDER BY`, which leaves tie order unspecified);
* each clock read (`timezone.now()`) is passed in explicitly: `now1` is the
  value read inside `get_queryset`, `now2` the one read inside `list`;
* data-store round trips are recorded in an explicit query trace.

Framework components explicitly configured by the sources
(`DjangoFilterBackend`, `OrderingFilter`, the permission predicate) are
modelled after the real framework semantics.  Configuration that is not part
of the sources (the project settings: pagination class and the
authentication dispatch) is modelled from the spec and marked as such.
-/

attribute [local semireducible] Rat.add Rat.mul Rat.sub Rat.inv

namespace ManageRide

/-! ### Data model (src/rides/models.py) -/

/-- A row of the `user` table (the serialized fields plus `role`). -/
structure User where
  id_user : ℕ
  username : String
  first_name : String
  last_name : String
  email : String
  role : String
  phone_number : String
deriving DecidableEq

/-- A row of the `ride` table.  `rider`/`driver` are nullable references
(`on_delete=SET_NULL`), held as user ids. -/
structure Ride where
  id_ride : ℕ
  status : String
  rider : Option ℕ
  driver : Option ℕ
  pickup_latitude : ℚ
  pickup_longitude : ℚ
  dropoff_latitude : Option ℚ
  dropoff_longitude : Option ℚ
  pickup_time : Option ℤ
deriving DecidableEq

/-- A row of the `ride_event` table. -/
structure RideEvent where
  id_ride_event : ℕ
  ride_id : ℕ
  description : String
  created_at : ℤ
deriving DecidableEq

/-- The relational store. -/
structure Store where
  users : List User
  rides : List Ride
  events : List RideEvent
deriving DecidableEq

/-! ### Python float values and `float(str)` parsing

`float()` in the views accepts ordinary decimal literals and also the
special tokens `inf`/`infinity`/`nan` (case-insensitive, optionally
signed).  Finite values are idealised as exact rationals; the special
values are kept as symbolic constructors.  Underscore digit separators and
non-ASCII digits are not modelled. -/

inductive PyFloat
  | finite (q : ℚ)
  | posInf
  | negInf
  | nan
deriving DecidableEq

def digitVal (c : Char) : ℕ := c.toNat - '0'.toNat

def digitsToNat (ds : List Char) : ℕ :=
  ds.foldl (fun acc c => 10 * acc + digitVal c) 0

def spanDigits (cs : List Char) : List Char × List Char :=
  (cs.takeWhile Char.isDigit, cs.dropWhile Char.isDigit)

/-- Parse an optional exponent part (`e`/`E`, optional sign, digits) that
must consume the whole remaining input; returns the exponent. -/
def parseExpTail (cs : List Char) : Option ℤ :=
  match cs with
  | [] => some 0
  | c :: rest =>
    if c = 'e' ∨ c = 'E' then
      let (sgn, rest2) : ℤ × List Char :=
        match rest with
        | '+' :: r => (1, r)
        | '-' :: r => (-1, r)
        | r => (1, r)
      let (ds, rest3) := spanDigits rest2
      if ds.isEmpty || !rest3.isEmpty then none
      else some (sgn * (digitsToNat ds : ℤ))
    else none

def applyExp (q : ℚ) (e : ℤ) : ℚ :=
  if 0 ≤ e then q * (10 : ℚ) ^ e.toNat else q / (10 : ℚ) ^ (-e).toNat

/-- Parse an unsigned decimal literal: `digits [. digits] [exp]` or
`. digits [exp]`, with at least one digit overall. -/
def parseNumber (cs : List Char) : Option ℚ :=
  let (ip, rest) := spanDigits cs
  match rest with
  | '.' :: rest2 =>
    let (fp, rest3) := spanDigits rest2
    if ip.isEmpty && fp.isEmpty then none
    else
      match parseExpTail rest3 with
      | none => none
      | some e =>
        some (applyExp ((digitsToNat ip : ℚ)
          + (digitsToNat fp : ℚ) / (10 : ℚ) ^ fp.length) e)
  | _ =>
    if ip.isEmpty then none
    else
      match parseExpTail rest with
      | none => none
      | some e => some (applyExp (digitsToNat ip : ℚ) e)

def isPySpace (c : Char) : Bool :=
  c = ' ' || c = '\t' || c = '\n' || c = '\r'

def trimWs (cs : List Char) : List Char :=
  ((cs.dropWhile isPySpace).reverse.dropWhile isPySpace).reverse

def pyFloatBody (neg : Bool) (cs : List Char) : Option PyFloat :=
  let l := cs.map Char.toLower
  if l = ['i', 'n', 'f'] ∨ l = ['i', 'n', 'f', 'i', 'n', 'i', 't', 'y'] then
    some (if neg then .negInf else .posInf)
  else if l = ['n', 'a', 'n'] then some .nan
  else (parseNumber cs).map fun q => .finite (if neg then -q else q)

/-- Model of the Python builtin `float(str)` used by the views. -/
def pyFloat (s : String) : Option PyFloat :=
  match trimWs s.toList with
  | '+' :: rest => pyFloatBody false rest
  | '-' :: rest => pyFloatBody true rest
  | cs => pyFloatBody false cs

/-- IEEE-style subtraction on the idealised values. -/
def PyFloat.sub : PyFloat → PyFloat → PyFloat
  | .nan, _ => .nan
  | _, .nan => .nan
  | .finite a, .finite b => .finite (a - b)
  | .finite _, .posInf => .negInf
  | .finite _, .negInf => .posInf
  | .posInf, .finite _ => .posInf
  | .posInf, .posInf => .nan
  | .posInf, .negInf => .posInf
  | .negInf, .finite _ => .negInf
  | .negInf, .posInf => .negInf
  | .negInf, .negInf => .nan

/-- IEEE-style addition on the idealised values. -/
def PyFloat.add : PyFloat → PyFloat → PyFloat
  | .nan, _ => .nan
  | _, .nan => .nan
  | .finite a, .finite b => .finite (a + b)
  | .finite _, .posInf => .posInf
  | .finite _, .negInf => .negInf
  | .posInf, .finite _ => .posInf
  | .negInf, .finite _ => .negInf
  | .posInf, .posInf => .posInf
  | .negInf, .negInf => .negInf
  | .posInf, .negInf => .nan
  | .negInf, .posInf => .nan

/-- IEEE-style multiplication on the idealised values. -/
def PyFloat.mul : PyFloat → PyFloat → PyFloat
  | .nan, _ => .nan
  | _, .nan => .nan
  | .finite a, .finite b => .finite (a * b)
  | .finite a, .posInf =>
      if 0 < a then .posInf else if a < 0 then .negInf else .nan
  | .posInf, .finite a =>
      if 0 < a then .posInf else if a < 0 then .negInf else .nan
  | .finite a, .negInf =>
      if 0 < a then .negInf else if a < 0 then .posInf else .nan
  | .negInf, .finite a =>
      if 0 < a then .negInf else if a < 0 then .posInf else .nan
  | .posInf, .posInf => .posInf
  | .negInf, .negInf => .posInf
  | .posInf, .negInf => .negInf
  | .negInf, .posInf => .negInf

/-- Comparison used when the store sorts by the `distance` annotation.
Total order with NaN placed last (the tie/NaN placement of `ORDER BY` is
store-specific; the claims only exercise finite values). -/
def PyFloat.le : PyFloat → PyFloat → Bool
  | _, .nan => true
  | .nan, _ => false
  | .negInf, _ => true
  | .finite _, .negInf => false
  | .posInf, .negInf => false
  | .finite a, .finite b => decide (a ≤ b)
  | .finite _, .posInf => true
  | .posInf, .finite _ => false
  | .posInf, .posInf => true

/-! ### Requests -/

/-- An HTTP request: the caller identity (`none` for the anonymous user,
whose `is_authenticated` is falsy and which carries no `role` attribute)
and the query parameters. -/
structure Request where
  user : Option User
  params : List (String × String)

/-- Model of `QueryDict.get`: the last value bound to the key wins. -/
def Request.getParam (r : Request) (k : String) : Option String :=
  (r.params.filterMap fun p => if p.1 = k then some p.2 else none).getLast?

def listStartsWith : List Char → List Char → Bool
  | [], _ => true
  | _ :: _, [] => false
  | a :: as, b :: bs => a = b && listStartsWith as bs

def containsSubAux (needle : List Char) : List Char → Bool
  | [] => needle.isEmpty
  | c :: rest => listStartsWith needle (c :: rest) || containsSubAux needle rest

/-- Model of the Python substring test `needle in hay`. -/
def strContains (hay needle : String) : Bool :=
  containsSubAux needle.toList hay.toList

/-! ### Access guard (src/rides/views.py, IsAdminRole) -/

/-- `IsAdminRole.has_permission`: `bool(user and user.is_authenticated and
getattr(user, 'role', None) == 'admin')`.  `request.user` is either an
authenticated `User` row or the anonymous user (`none` here): a model
instance's `is_authenticated` is always truthy and the anonymous user's is
falsy, so the conjunction reduces to the role check on a present user. -/
def has_permission (user : Option User) : Bool :=
  match user with
  | none => false
  | some u => u.role == "admin"

/-! ### Query sets (src/rides/views.py, RideViewSet.get_queryset and the
configured filter backends) -/

inductive OrderKey
  | id_ride
  | pickup_time_asc
  | pickup_time_desc
  | distance_asc
  | distance_desc
deriving DecidableEq

/-- The state a lazily-built ride query set accumulates before execution:
the two configured exact-match filters, the distance-annotation parameters,
the `created_at` threshold of the event prefetch, and the `ORDER BY` keys. -/
structure RideQuerySet where
  statusFilter : Option String
  riderEmailFilter : Option String
  distParams : Option (PyFloat × PyFloat)
  eventThreshold : ℤ
  orderKeys : List OrderKey
deriving DecidableEq

/-- `RideViewSet._get_todays_threshold`, with the `timezone.now()` read
passed in as `now` (timestamps in seconds, so 24 hours = 86400). -/
def get_todays_threshold (now : ℤ) : ℤ := now - 24 * 3600

/-- `RideViewSet.get_queryset`: joins rider/driver, prefetches events with
`created_at` at least the threshold, annotates `distance` when both `lat`
and `lng` parse as floats (silently skipping the annotation otherwise:
`except (ValueError, TypeError): pass`), and ends with
`order_by('id_ride')`. -/
def get_queryset (req : Request) (now1 : ℤ) : RideQuerySet :=
  let threshold := get_todays_threshold now1
  let distParams :=
    match req.getParam "lat", req.getParam "lng" with
    | some la, some lb =>
      match pyFloat la, pyFloat lb with
      | some fa, some fb => some (fa, fb)
      | _, _ => none
    | _, _ => none
  { statusFilter := none
    riderEmailFilter := none
    distParams := distParams
    eventThreshold := threshold
    orderKeys := [OrderKey.id_ride] }

/-- Model of `DjangoFilterBackend` with
`filterset_fields = ['status', 'rider__email']`: each present, non-empty
query parameter of exactly those names adds an exact-match filter
(django-filter skips empty parameter values). -/
def djangoFilterBackend (req : Request) (qs : RideQuerySet) : RideQuerySet :=
  let qs1 :=
    match req.getParam "status" with
    | some v => if v = "" then qs else { qs with statusFilter := some v }
    | none => qs
  match req.getParam "rider__email" with
  | some v => if v = "" then qs1 else { qs1 with riderEmailFilter := some v }
  | none => qs1

/-- Model of Python `str.split(',')`. -/
def splitOnComma : List Char → List (List Char)
  | [] => [[]]
  | c :: rest =>
    if c = ',' then [] :: splitOnComma rest
    else
      match splitOnComma rest with
      | [] => [[c]]
      | g :: gs => (c :: g) :: gs

/-- One comma-separated, whitespace-stripped ordering term, checked
against `ordering_fields = ['pickup_time', 'distance']`. -/
def parseOrderTerm (t : List Char) : Option OrderKey :=
  if t = "pickup_time".toList then some .pickup_time_asc
  else if t = "-pickup_time".toList then some .pickup_time_desc
  else if t = "distance".toList then some .distance_asc
  else if t = "-distance".toList then some .distance_desc
  else none

/-- Model of `rest_framework.filters.OrderingFilter`: the `ordering`
parameter is split on commas, terms are stripped, unrecognized terms are
silently dropped; when at least one valid term remains the query set's
ordering is replaced by exactly those terms, otherwise (and when the
parameter is absent or empty) the query set is left unchanged. -/
def orderingFilter (req : Request) (qs : RideQuerySet) : RideQuerySet :=
  match req.getParam "ordering" with
  | none => qs
  | some p =>
    if p = "" then qs
    else
      let keys := ((splitOnComma p.toList).map trimWs).filterMap parseOrderTerm
      if keys.isEmpty then qs else { qs with orderKeys := keys }

/-- `self.filter_queryset(...)`: the backends run in the configured order
`[DjangoFilterBackend, OrderingFilter]`. -/
def filter_queryset (req : Request) (qs : RideQuerySet) : RideQuerySet :=
  orderingFilter req (djangoFilterBackend req qs)

/-! ### Executing a query set against the store -/

def findUser (s : Store) (uid : ℕ) : Option User :=
  s.users.find? fun u => u.id_user == uid

/-- The WHERE clause of the ride page query.  The `rider__email` filter
joins through the rider reference (an SQL inner join: rides with a null
rider, or a dangling reference, are excluded). -/
def ridePasses (s : Store) (qs : RideQuerySet) (r : Ride) : Bool :=
  (match qs.statusFilter with
   | none => true
   | some v => r.status == v) &&
  (match qs.riderEmailFilter with
   | none => true
   | some v =>
     match r.rider with
     | none => false
     | some uid =>
       match findUser s uid with
       | none => false
       | some u => u.email == v)

/-- The `distance` annotation:
`(pickup_latitude - lat)*(pickup_latitude - lat) +
 (pickup_longitude - lng)*(pickup_longitude - lng)`.
The `none` case is unreachable on the list path (ordering by the
annotation presupposes validated coordinates). -/
def rideDistance (dp : Option (PyFloat × PyFloat)) (r : Ride) : PyFloat :=
  match dp with
  | none => .nan
  | some (la, lb) =>
    let dlat := (PyFloat.finite r.pickup_latitude).sub la
    let dlng := (PyFloat.finite r.pickup_longitude).sub lb
    (dlat.mul dlat).add (dlng.mul dlng)

/-- Comparison of nullable timestamps (`ORDER BY` with NULLs first; the
NULL placement is store-specific and not exercised by the claims). -/
def optIntLe : Option ℤ → Option ℤ → Bool
  | none, _ => true
  | some _, none => false
  | some a, some b => decide (a ≤ b)

def keyLe (qs : RideQuerySet) : OrderKey → Ride → Ride → Bool
  | .id_ride, a, b => decide (a.id_ride ≤ b.id_ride)
  | .pickup_time_asc, a, b => optIntLe a.pickup_time b.pickup_time
  | .pickup_time_desc, a, b => optIntLe b.pickup_time a.pickup_time
  | .distance_asc, a, b =>
      (rideDistance qs.distParams a).le (rideDistance qs.distParams b)
  | .distance_desc, a, b =>
      (rideDistance qs.distParams b).le (rideDistance qs.distParams a)

/-- Lexicographic comparison along the `ORDER BY` key list. -/
def lexLe (qs : RideQuerySet) : List OrderKey → Ride → Ride → Bool
  | [], _, _ => true
  | k :: ks, a, b =>
    if keyLe qs k a b then
      if keyLe qs k b a then lexLe qs ks a b else true
    else false

/-- Executing the ride query: filter the stored rows, then sort by the
`ORDER BY` keys.  A stable sort over storage order models one realisable
behaviour of SQL `ORDER BY` (which leaves the order of ties unspecified). -/
def evalRideQuerySet (s : Store) (qs : RideQuerySet) : List Ride :=
  List.insertionSort (fun a b => lexLe qs qs.orderKeys a b = true)
    (s.rides.filter (ridePasses s qs))

/-- The rows delivered by the event-prefetch query for one ride of the
page: that ride's events with `created_at` at least the threshold. -/
def prefetchedEvents (s : Store) (threshold : ℤ) (r : Ride) : List RideEvent :=
  s.events.filter fun e =>
    e.ride_id == r.id_ride && decide (threshold ≤ e.created_at)

/-! ### Wire representations (src/rides/serializers.py) -/

/-- `UserSerializer` output. -/
structure UserOut where
  id_user : ℕ
  username : String
  first_name : String
  last_name : String
  email : String
  role : String
  phone_number : String
deriving DecidableEq

def userOut (u : User) : UserOut :=
  { id_user := u.id_user, username := u.username, first_name := u.first_name
    last_name := u.last_name, email := u.email, role := u.role
    phone_number := u.phone_number }

/-- `RideEventSerializer` output. -/
structure RideEventOut where
  id_ride_event : ℕ
  description : String
  created_at : ℤ
deriving DecidableEq

def rideEventOut (e : RideEvent) : RideEventOut :=
  { id_ride_event := e.id_ride_event, description := e.description
    created_at := e.created_at }

/-- `RideSerializer` output. -/
structure RideOut where
  id_ride : ℕ
  status : String
  rider : Option UserOut
  driver : Option UserOut
  pickup_latitude : ℚ
  pickup_longitude : ℚ
  dropoff_latitude : Option ℚ
  dropoff_longitude : Option ℚ
  pickup_time : Option ℤ
  todays_ride_events : List RideEventOut
deriving DecidableEq

/-! ### Data-store round trips -/

/-- One data-store round trip issued while answering a list request. -/
inductive Query
  | count
  | ridePage
  | eventWindow (rideIds : List ℕ)
  | perRideEvents (rideId : ℕ)
deriving DecidableEq

def concatAll (l : List (List Query)) : List Query :=
  l.foldr (· ++ ·) []

/-- `RideSerializer.get_todays_ride_events`: use the prefetched
`todays_ride_events` attribute when present (always a list, possibly
empty); otherwise fall back to a per-ride filtered query using the
`todays_threshold` from the serializer context (an extra round trip), or
to an empty list when the context carries no threshold.  Returns the
serialized events together with the round trips the branch issued. -/
def get_todays_ride_events (s : Store) (ctxThreshold : Option ℤ) (r : Ride)
    (todaysAttr : Option (List RideEvent)) : List RideEventOut × List Query :=
  match todaysAttr with
  | some evs => (evs.map rideEventOut, [])
  | none =>
    match ctxThreshold with
    | none => ([], [])
    | some t =>
      ((s.events.filter fun e =>
          e.ride_id == r.id_ride && decide (t ≤ e.created_at)).map rideEventOut,
       [Query.perRideEvents r.id_ride])

/-- `RideSerializer` on one ride: nested rider/driver (null when the
reference is null or dangling, via the select-related left join) and the
`todays_ride_events` method field. -/
def serializeRide (s : Store) (ctxThreshold : Option ℤ) (r : Ride)
    (todaysAttr : Option (List RideEvent)) : RideOut × List Query :=
  ({ id_ride := r.id_ride, status := r.status
     rider := (r.rider.bind (findUser s)).map userOut
     driver := (r.driver.bind (findUser s)).map userOut
     pickup_latitude := r.pickup_latitude
     pickup_longitude := r.pickup_longitude
     dropoff_latitude := r.dropoff_latitude
     dropoff_longitude := r.dropoff_longitude
     pickup_time := r.pickup_time
     todays_ride_events := (get_todays_ride_events s ctxThreshold r todaysAttr).1 },
   (get_todays_ride_events s ctxThreshold r todaysAttr).2)

/-! ### Pagination (modelled from the spec) -/

/-- Modelled from the spec: parsing of the positive-integer pagination
parameters (the pagination configuration lives in the project settings,
which are not among the sources; §4.1 and §7 of the spec fix page-number
pagination, default page size 20, and a 400 client error on malformed
pagination parameters). -/
def parsePosNat (v : String) : Option ℕ :=
  let cs := v.toList
  if cs.isEmpty || !cs.all Char.isDigit then none
  else
    let n := digitsToNat cs
    if n = 0 then none else some n

/-- Modelled from the spec: the `page` parameter, defaulting to the first
page. -/
def parsePageParam (req : Request) : Option ℕ :=
  match req.getParam "page" with
  | none => some 1
  | some v => parsePosNat v

/-- Modelled from the spec: the `page_size` parameter, defaulting to 20. -/
def parsePageSizeParam (req : Request) : Option ℕ :=
  match req.getParam "page_size" with
  | none => some 20
  | some v => parsePosNat v

def pageOf (l : List Ride) (page size : ℕ) : List Ride :=
  (l.drop ((page - 1) * size)).take size

/-- The page envelope `{count, next, previous, results}`. -/
structure PageEnvelope where
  count : ℕ
  next : Option ℕ
  previous : Option ℕ
  results : List RideOut
deriving DecidableEq

inductive Response
  | ok (body : PageEnvelope)
  | badRequest (error : String)
  | unauthorized
  | forbidden
deriving DecidableEq

/-- Everything observable about one processed request: the response, the
trace of data-store round trips, the two `threshold` locals (the one
computed in `get_queryset` for the prefetch window and the one computed in
`list` for the serializer context), and the store afterwards. -/
structure Outcome where
  response : Response
  queries : List Query
  threshold_qs : Option ℤ
  threshold_ctx : Option ℤ
  store : Store

def missingCoordsError : String :=
  "Sorting by distance requires both \"lat\" and \"lng\" query parameters."

def invalidCoordsError : String :=
  "\"lat\" and \"lng\" must be valid numeric values."

/-- Modelled from the spec: the error body for malformed pagination
parameters (§7). -/
def invalidPaginationError : String :=
  "Invalid pagination parameters."

/-- Assembling the successful page: the page slice of the executed query
set, each ride serialized with its prefetched (possibly empty) event
list attached. -/
def buildEnvelope (s : Store) (qs : RideQuerySet) (t2 : ℤ)
    (page size : ℕ) : PageEnvelope :=
  let allRides := evalRideQuerySet s qs
  let pageRides := pageOf allRides page size
  { count := allRides.length
    next := if page * size < allRides.length then some (page + 1) else none
    previous := if 1 < page then some (page - 1) else none
    results := pageRides.map fun r =>
      (serializeRide s (some t2) r
        (some (prefetchedEvents s qs.eventThreshold r))).1 }

/-- The round trips of the successful page: the count query, the joined
ride page query, the windowed event query restricted to the page's ride
ids (skipped when the page is empty), plus whatever the serializer
issues. -/
def pageQueries (s : Store) (qs : RideQuerySet) (t2 : ℤ)
    (page size : ℕ) : List Query :=
  let pageRides := pageOf (evalRideQuerySet s qs) page size
  [Query.count, Query.ridePage]
    ++ (if pageRides.isEmpty then []
        else [Query.eventWindow (pageRides.map Ride.id_ride)])
    ++ concatAll (pageRides.map fun r =>
        (serializeRide s (some t2) r
          (some (prefetchedEvents s qs.eventThreshold r))).2)

/-- The body of `RideViewSet.list` after validation: build and filter the
query set, recompute the threshold for the serializer context, paginate,
serialize. -/
def listMain (s : Store) (req : Request) (now1 now2 : ℤ) : Outcome :=
  let qs := filter_queryset req (get_queryset req now1)
  let t2 := get_todays_threshold now2
  match parsePageParam req, parsePageSizeParam req with
  | some page, some size =>
    { response := .ok (buildEnvelope s qs t2 page size)
      queries := pageQueries s qs t2 page size
      threshold_qs := some qs.eventThreshold
      threshold_ctx := some t2
      store := s }
  | _, _ =>
    { response := .badRequest invalidPaginationError
      queries := []
      threshold_qs := none
      threshold_ctx := none
      store := s }

/-- `RideViewSet.list`: when the `ordering` parameter contains the
substring `distance`, require `lat` and `lng` to be present and to parse
as floats before touching the store; otherwise (and on success) run the
main path. -/
def listRide (s : Store) (req : Request) (now1 now2 : ℤ) : Outcome :=
  let ordering := (req.getParam "ordering").getD ""
  if strContains ordering "distance" then
    match req.getParam "lat", req.getParam "lng" with
    | some la, some lb =>
      if (pyFloat la).isNone || (pyFloat lb).isNone then
        { response := .badRequest invalidCoordsError, queries := []
          threshold_qs := none, threshold_ctx := none, store := s }
      else listMain s req now1 now2
    | _, _ =>
      { response := .badRequest missingCoordsError, queries := []
        threshold_qs := none, threshold_ctx := none, store := s }
  else listMain s req now1 now2

/-- Full request processing.  The permission predicate comes from the
sources; the denial dispatch is modelled from the spec (the authentication
configuration lives in the project settings, which are not among the
sources; §4.2/§6 map "no identity" to 401 and "authenticated but wrong
role" to 403).  `now1`/`now2` are the values produced by the two
`timezone.now()` reads on the list path. -/
def processRequest (s : Store) (req : Request) (now1 now2 : ℤ) : Outcome :=
  if has_permission req.user then listRide s req now1 now2
  else
    { response := match req.user with
        | none => .unauthorized
        | some _ => .forbidden
      queries := []
      threshold_qs := none
      threshold_ctx := none
      store := s }

/-! ### Concrete sample data used by the witnesses and counterexamples -/

def adminUser : User :=
  { id_user := 100, username := "admin", first_name := "", last_name := ""
    email := "admin@example.com", role := "admin", phone_number := "" }

def riderUser : User :=
  { id_user := 1, username := "rider", first_name := "", last_name := ""
    email := "rider@example.com", role := "user", phone_number := "" }

def rideNear : Ride :=
  { id_ride := 1, status := "en-route", rider := some 1, driver := none
    pickup_latitude := 0, pickup_longitude := 0
    dropoff_latitude := none, dropoff_longitude := none
    pickup_time := some 100 }

def rideFar : Ride :=
  { id_ride := 2, status := "pickup", rider := some 1, driver := none
    pickup_latitude := 10, pickup_longitude := 10
    dropoff_latitude := none, dropoff_longitude := none
    pickup_time := some 100 }

def eventRecent : RideEvent :=
  { id_ride_event := 1, ride_id := 1
    description := "Status changed to pickup", created_at := -100 }

def eventOld : RideEvent :=
  { id_ride_event := 2, ride_id := 1
    description := "Some old event", created_at := -200000 }

/-- Two rides with equal `pickup_time`, stored with the higher id first;
one recent and one old event on the near ride. -/
def sampleStore : Store :=
  { users := [riderUser], rides := [rideFar, rideNear]
    events := [eventRecent, eventOld] }

def plainReq : Request := { user := some adminUser, params := [] }

/-- Malformed `lat` without distance ordering. -/
def malformedLatReq : Request :=
  { user := some adminUser, params := [("lat", "abc"), ("lng", "1")] }

/-- Distance ordering with `lat=inf` (parseable by `float`, not finite). -/
def infLatReq : Request :=
  { user := some adminUser
    params := [("ordering", "distance"), ("lat", "inf"), ("lng", "0")] }

/-- Distance ordering with no coordinates at all. -/
def distanceNoCoordsReq : Request :=
  { user := some adminUser, params := [("ordering", "distance")] }

/-- Distance ordering with unparseable coordinates. -/
def distanceBadCoordsReq : Request :=
  { user := some adminUser
    params := [("ordering", "distance"), ("lat", "abc"), ("lng", "xyz")] }

/-- An ordering value that matches no recognized field. -/
def unknownOrderingReq : Request :=
  { user := some adminUser, params := [("ordering", "foo")] }

/-- The spec's `rider_email` parameter name (single underscore). -/
def wrongEmailFilterReq : Request :=
  { user := some adminUser, params := [("rider_email", "other@example.com")] }

/-- The filter parameter the code actually exposes. -/
def riderEmailReq : Request :=
  { user := some adminUser, params := [("rider__email", "rider@example.com")] }

def pickupOrderingReq : Request :=
  { user := some adminUser, params := [("ordering", "pickup_time")] }

def distanceOriginReq : Request :=
  { user := some adminUser
    params := [("ordering", "distance"), ("lat", "0"), ("lng", "0")] }

/-! ### Properties of the ordering comparisons -/

lemma optIntLe_total (a b : Option ℤ) : optIntLe a b = true ∨ optIntLe b a = true := by
  cases a <;> cases b <;> simp [optIntLe] <;> omega

lemma optIntLe_trans {a b c : Option ℤ} (h1 : optIntLe a b = true)
    (h2 : optIntLe b c = true) : optIntLe a c = true := by
  cases a <;> cases b <;> cases c <;> simp_all [optIntLe] <;> omega

lemma pyLe_total (a b : PyFloat) : a.le b = true ∨ b.le a = true := by
  cases a <;> cases b <;> simp [PyFloat.le] <;> exact le_total _ _

lemma pyLe_trans {a b c : PyFloat} (h1 : a.le b = true) (h2 : b.le c = true) :
    a.le c = true := by
  cases a <;> cases b <;> cases c <;> simp_all [PyFloat.le]
  exact le_trans h1 h2

lemma keyLe_total (qs : RideQuerySet) (k : OrderKey) (a b : Ride) :
    keyLe qs k a b = true ∨ keyLe qs k b a = true := by
  cases k <;> simp only [keyLe]
  · simp only [decide_eq_true_eq]; omega
  · exact optIntLe_total _ _
  · exact optIntLe_total _ _
  · exact pyLe_total _ _
  · exact pyLe_total _ _

lemma keyLe_trans (qs : RideQuerySet) (k : OrderKey) {a b c : Ride}
    (h1 : keyLe qs k a b = true) (h2 : keyLe qs k b c = true) :
    keyLe qs k a c = true := by
  cases k <;> simp only [keyLe, decide_eq_true_eq] at *
  · omega
  · exact optIntLe_trans h1 h2
  · exact optIntLe_trans h2 h1
  · exact pyLe_trans h1 h2
  · exact pyLe_trans h2 h1

lemma lexLe_total (qs : RideQuerySet) :
    ∀ (keys : List OrderKey) (a b : Ride),
      lexLe qs keys a b = true ∨ lexLe qs keys b a = true
  | [], _, _ => Or.inl rfl
  | k :: ks, a, b => by
    by_cases hab : keyLe qs k a b = true <;>
      by_cases hba : keyLe qs k b a = true <;>
      simp only [lexLe, hab, hba, if_true, if_false]
    · exact lexLe_total qs ks a b
    · exact Or.inl rfl
    · exact Or.inr rfl
    · rcases keyLe_total qs k a b with h | h
      · exact absurd h hab
      · exact absurd h hba

lemma lexLe_trans (qs : RideQuerySet) :
    ∀ (keys : List OrderKey) {a b c : Ride},
      lexLe qs keys a b = true → lexLe qs keys b c = true →
      lexLe qs keys a c = true
  | [], _, _, _, _, _ => rfl
  | k :: ks, a, b, c, h1, h2 => by
    simp only [lexLe] at h1 h2 ⊢
    by_cases hab : keyLe qs k a b = true; swap
    · simp [hab] at h1
    by_cases hbc : keyLe qs k b c = true; swap
    · simp [hbc] at h2
    have hac : keyLe qs k a c = true := keyLe_trans qs k hab hbc
    simp only [hab, hbc, hac, if_true] at h1 h2 ⊢
    by_cases hca : keyLe qs k c a = true; swap
    · simp [hca]
    have hba : keyLe qs k b a = true := keyLe_trans qs k hbc hca
    have hcb : keyLe qs k c b = true := keyLe_trans qs k hca hab
    simp only [hba, hcb, hca, if_true] at h1 h2 ⊢
    exact lexLe_trans qs ks h1 h2

/-- The executed query is sorted by the query set's `ORDER BY` keys. -/
lemma sorted_evalRideQuerySet (s : Store) (qs : RideQuerySet) :
    (evalRideQuerySet s qs).Sorted
      (fun a b => lexLe qs qs.orderKeys a b = true) := by
  haveI : IsTotal Ride (fun a b => lexLe qs qs.orderKeys a b = true) :=
    ⟨fun a b => lexLe_total qs _ a b⟩
  haveI : IsTrans Ride (fun a b => lexLe qs qs.orderKeys a b = true) :=
    ⟨fun _ _ _ => lexLe_trans qs _⟩
  exact List.sorted_insertionSort _ _

/-- The executed query is a permutation of the filtered stored rows. -/
lemma perm_evalRideQuerySet (s : Store) (qs : RideQuerySet) :
    List.Perm (evalRideQuerySet s qs) (s.rides.filter (ridePasses s qs)) :=
  List.perm_insertionSort _ _

/-! ### Structural lemmas about the pipeline -/

lemma djangoFilterBackend_untouched (req : Request) (qs : RideQuerySet) :
    (djangoFilterBackend req qs).eventThreshold = qs.eventThreshold ∧
    (djangoFilterBackend req qs).distParams = qs.distParams ∧
    (djangoFilterBackend req qs).orderKeys = qs.orderKeys := by
  unfold djangoFilterBackend
  cases req.getParam "status" <;> cases req.getParam "rider__email" <;>
    dsimp <;> repeat' split
  all_goals exact ⟨rfl, rfl, rfl⟩

lemma orderingFilter_untouched (req : Request) (qs : RideQuerySet) :
    (orderingFilter req qs).eventThreshold = qs.eventThreshold ∧
    (orderingFilter req qs).distParams = qs.distParams ∧
    (orderingFilter req qs).statusFilter = qs.statusFilter ∧
    (orderingFilter req qs).riderEmailFilter = qs.riderEmailFilter := by
  unfold orderingFilter
  cases req.getParam "ordering" <;> dsimp <;> repeat' split
  all_goals exact ⟨rfl, rfl, rfl, rfl⟩

lemma filter_queryset_eventThreshold (req : Request) (qs : RideQuerySet) :
    (filter_queryset req qs).eventThreshold = qs.eventThreshold := by
  unfold filter_queryset
  rw [(orderingFilter_untouched req _).1, (djangoFilterBackend_untouched req qs).1]

lemma filter_queryset_distParams (req : Request) (qs : RideQuerySet) :
    (filter_queryset req qs).distParams = qs.distParams := by
  unfold filter_queryset
  rw [(orderingFilter_untouched req _).2.1, (djangoFilterBackend_untouched req qs).2.1]

lemma get_queryset_eventThreshold (req : Request) (now1 : ℤ) :
    (get_queryset req now1).eventThreshold = get_todays_threshold now1 := rfl

/-- When the prefetched attribute is present, the serializer issues no
extra round trip. -/
lemma serializeRide_some_snd (s : Store) (c : Option ℤ) (r : Ride)
    (l : List RideEvent) : (serializeRide s c r (some l)).2 = [] := rfl

lemma serializeRide_some_events (s : Store) (c : Option ℤ) (r : Ride)
    (l : List RideEvent) :
    (serializeRide s c r (some l)).1.todays_ride_events = l.map rideEventOut := rfl

lemma serializeRide_fst_id_ride (s : Store) (c : Option ℤ) (r : Ride)
    (attr : Option (List RideEvent)) :
    (serializeRide s c r attr).1.id_ride = r.id_ride := rfl

/-- With the prefetched attribute present, the serializer ignores the
context threshold entirely. -/
lemma serializeRide_ctx_irrelevant (s : Store) (c c' : Option ℤ) (r : Ride)
    (l : List RideEvent) :
    serializeRide s c r (some l) = serializeRide s c' r (some l) := rfl

lemma concatAll_nils (l : List Ride) :
    concatAll (l.map fun _ => ([] : List Query)) = [] := by
  induction l with
  | nil => rfl
  | cons _ _ ih => simpa [concatAll] using ih

/-- The round trips of a successful page are exactly the count query, the
ride page query and (for a non-empty page) the windowed event query. -/
lemma pageQueries_shape (s : Store) (qs : RideQuerySet) (t2 : ℤ)
    (page size : ℕ) :
    pageQueries s qs t2 page size
      = [Query.count, Query.ridePage]
        ++ (if (pageOf (evalRideQuerySet s qs) page size).isEmpty then []
            else [Query.eventWindow
              ((pageOf (evalRideQuerySet s qs) page size).map Ride.id_ride)]) := by
  have h : ((pageOf (evalRideQuerySet s qs) page size).map fun r =>
      (serializeRide s (some t2) r
        (some (prefetchedEvents s qs.eventThreshold r))).2)
      = (pageOf (evalRideQuerySet s qs) page size).map fun _ => [] := by
    simp [serializeRide_some_snd]
  simp only [pageQueries]
  rw [h, concatAll_nils]
  simp

/-- Inversion of a successful response: the caller passed the admin
check and the envelope is the assembled page for the built-and-filtered
query set, with the two thresholds coming from the two clock reads. -/
lemma processRequest_ok {s : Store} {req : Request} {now1 now2 : ℤ}
    {env : PageEnvelope}
    (hok : (processRequest s req now1 now2).response = .ok env) :
    has_permission req.user = true ∧
    ∃ page size, parsePageParam req = some page ∧
      parsePageSizeParam req = some size ∧
      env = buildEnvelope s (filter_queryset req (get_queryset req now1))
        (get_todays_threshold now2) page size := by
  unfold processRequest at hok
  by_cases hp : has_permission req.user
  case neg =>
    rw [if_neg hp] at hok
    cases hu : req.user <;> simp [hu] at hok
  case pos =>
    rw [if_pos hp] at hok
    refine ⟨hp, ?_⟩
    simp only [listRide] at hok
    have hmain : (listMain s req now1 now2).response = .ok env := by
      split at hok
      · split at hok
        · split at hok
          · simp at hok
          · exact hok
        · simp at hok
      · exact hok
    unfold listMain at hmain
    split at hmain
    case h_1 page size hpg hps =>
      refine ⟨page, size, hpg, hps, ?_⟩
      simpa using hmain.symm
    case h_2 =>
      simp at hmain

/-- Every serialized ride of a page comes from a stored ride passing the
query set's filters. -/
lemma results_mem {s : Store} {qs : RideQuerySet} {t2 : ℤ} {page size : ℕ}
    {ro : RideOut} (h : ro ∈ (buildEnvelope s qs t2 page size).results) :
    ∃ r, r ∈ s.rides ∧ ridePasses s qs r = true ∧
      ro = (serializeRide s (some t2) r
        (some (prefetchedEvents s qs.eventThreshold r))).1 := by
  simp only [buildEnvelope, List.mem_map] at h
  obtain ⟨r, hr, hser⟩ := h
  simp only [pageOf] at hr
  have hmem : r ∈ evalRideQuerySet s qs :=
    (List.drop_subset _ _) ((List.take_subset _ _) hr)
  have hmemf := (perm_evalRideQuerySet s qs).mem_iff.mp hmem
  rw [List.mem_filter] at hmemf
  exact ⟨r, hmemf.1, hmemf.2, hser.symm⟩

/-- The envelope does not depend on the serializer-context threshold: the
prefetched attribute is always present on the paginated path. -/
lemma buildEnvelope_ctx_irrelevant (s : Store) (qs : RideQuerySet)
    (t2 t2' : ℤ) (page size : ℕ) :
    buildEnvelope s qs t2 page size = buildEnvelope s qs t2' page size := rfl

lemma listMain_response_ctx_irrelevant (s : Store) (req : Request)
    (now1 now2 now2' : ℤ) :
    (listMain s req now1 now2).response = (listMain s req now1 now2').response := by
  unfold listMain
  cases hpg : parsePageParam req <;> cases hps : parsePageSizeParam req <;>
    simp [hpg, hps]
  exact buildEnvelope_ctx_irrelevant _ _ _ _ _ _

lemma lexLe_single (qs : RideQuerySet) (k : OrderKey) (a b : Ride) :
    lexLe qs [k] a b = keyLe qs k a b := by
  by_cases h1 : keyLe qs k a b = true <;>
    by_cases h2 : keyLe qs k b a = true <;>
    simp [lexLe, h1, h2]

/-- A present, non-empty `ordering` parameter with at least one
recognized term replaces the ordering outright. -/
lemma filter_queryset_orderKeys_of (req : Request) (qs : RideQuerySet)
    {p : String} (hord : req.getParam "ordering" = some p) (hp : p ≠ "")
    {k : OrderKey} {ks : List OrderKey}
    (hks : ((splitOnComma p.toList).map trimWs).filterMap parseOrderTerm
      = k :: ks) :
    (filter_queryset req qs).orderKeys = k :: ks := by
  unfold filter_queryset orderingFilter
  rw [hord]
  dsimp only
  rw [if_neg hp, hks]
  rfl

/-- An absent (or useless) `ordering` parameter leaves the ordering of
`get_queryset` in place. -/
lemma filter_queryset_orderKeys_default (req : Request) (qs : RideQuerySet)
    (hord : req.getParam "ordering" = none) :
    (filter_queryset req qs).orderKeys = qs.orderKeys := by
  unfold filter_queryset orderingFilter
  rw [hord]
  exact (djangoFilterBackend_untouched req qs).2.2

lemma filter_queryset_statusFilter_none (req : Request) (qs : RideQuerySet)
    (hst : req.getParam "status" = none) :
    (filter_queryset req qs).statusFilter = qs.statusFilter := by
  unfold filter_queryset
  rw [(orderingFilter_untouched req _).2.2.1]
  unfold djangoFilterBackend
  rw [hst]
  cases hre : req.getParam "rider__email" <;> dsimp <;> repeat' split
  all_goals rfl

lemma filter_queryset_riderEmailFilter (req : Request) (qs : RideQuerySet) :
    (filter_queryset req qs).riderEmailFilter
      = match req.getParam "rider__email" with
        | none => qs.riderEmailFilter
        | some v => if v = "" then qs.riderEmailFilter else some v := by
  unfold filter_queryset
  rw [(orderingFilter_untouched req _).2.2.2]
  unfold djangoFilterBackend
  cases hre : req.getParam "rider__email" <;>
    cases hst : req.getParam "status" <;> dsimp <;> repeat' split
  all_goals rfl

/-- Rides all pass a query set carrying no filters. -/
lemma ridePasses_of_no_filters (s : Store) (qs : RideQuerySet) (r : Ride)
    (h1 : qs.statusFilter = none) (h2 : qs.riderEmailFilter = none) :
    ridePasses s qs r = true := by
  simp [ridePasses, h1, h2]

lemma serializeRide_fst_latitude (s : Store) (c : Option ℤ) (r : Ride)
    (attr : Option (List RideEvent)) :
    (serializeRide s c r attr).1.pickup_latitude = r.pickup_latitude := rfl

lemma serializeRide_fst_longitude (s : Store) (c : Option ℤ) (r : Ride)
    (attr : Option (List RideEvent)) :
    (serializeRide s c r attr).1.pickup_longitude = r.pickup_longitude := rfl

/-- Pairwise ordering of the serialized page, transported from the sort
order of the executed query. -/
lemma results_pairwise (s : Store) (qs : RideQuerySet) (t2 : ℤ)
    (page size : ℕ) {R : RideOut → RideOut → Prop}
    (hR : ∀ a b : Ride, lexLe qs qs.orderKeys a b = true →
      R (serializeRide s (some t2) a
          (some (prefetchedEvents s qs.eventThreshold a))).1
        (serializeRide s (some t2) b
          (some (prefetchedEvents s qs.eventThreshold b))).1) :
    (buildEnvelope s qs t2 page size).results.Pairwise R := by
  have hp : (pageOf (evalRideQuerySet s qs) page size).Pairwise
      (fun a b => lexLe qs qs.orderKeys a b = true) := by
    refine List.Pairwise.sublist ?_ (sorted_evalRideQuerySet s qs)
    simp only [pageOf]
    exact (List.take_sublist _ _).trans (List.drop_sublist _ _)
  exact List.Pairwise.map _ (fun a b h => hR a b h) hp

lemma head?_take_of_pos {α : Type} {l : List α} {n : ℕ} (hn : 0 < n) :
    (l.take n).head? = l.head? := by
  cases l with
  | nil => simp
  | cons x xs =>
    cases n with
    | zero => exact absurd hn (by simp)
    | succ m => simp [List.take_succ_cons]

/-! ### The claims -/

/-- C1: for every ride in a successful result page, the returned events
list contains exactly that ride's RideEvents with `created_at` at least
24 hours before the request's query-building clock read (`now1`), and no
others; it is a list — empty, never null or absent — when no event
qualifies. -/
theorem C1_page_event_window (s : Store) (req : Request) (now1 now2 : ℤ)
    (env : PageEnvelope)
    (hok : (processRequest s req now1 now2).response = .ok env) :
    ∀ ro ∈ env.results,
      ro.todays_ride_events
        = (s.events.filter fun e =>
            e.ride_id == ro.id_ride
              && decide (now1 - 24 * 3600 ≤ e.created_at)).map rideEventOut := by
  obtain ⟨-, page, size, -, -, henv⟩ := processRequest_ok hok
  subst henv
  intro ro hro
  obtain ⟨r, -, -, hser⟩ := results_mem hro
  subst hser
  rw [serializeRide_some_events]
  have ht : (filter_queryset req (get_queryset req now1)).eventThreshold
      = now1 - 24 * 3600 := by
    rw [filter_queryset_eventThreshold]; rfl
  simp only [prefetchedEvents, ht]
  rfl

/-- Witness for C1 at the sample store: a plain admin list request. -/
theorem C1_witness :
    ∃ env, (processRequest sampleStore plainReq 0 0).response = .ok env ∧
      ∀ ro ∈ env.results,
        ro.todays_ride_events
          = (sampleStore.events.filter fun e =>
              e.ride_id == ro.id_ride
                && decide ((0 : ℤ) - 24 * 3600 ≤ e.created_at)).map rideEventOut :=
  ⟨_, rfl, C1_page_event_window sampleStore plainReq 0 0 _ rfl⟩

/-- C2: whatever the request, the list path issues at most three
data-store round trips (count, ride page, windowed event fetch) and
never a per-ride event query. -/
theorem C2_bounded_round_trips (s : Store) (req : Request) (now1 now2 : ℤ) :
    (processRequest s req now1 now2).queries.length ≤ 3 ∧
    ∀ rid : ℕ,
      Query.perRideEvents rid ∉ (processRequest s req now1 now2).queries := by
  have key : ∀ qs t2 page size,
      (pageQueries s qs t2 page size).length ≤ 3 ∧
      ∀ rid : ℕ, Query.perRideEvents rid ∉ pageQueries s qs t2 page size := by
    intro qs t2 page size
    rw [pageQueries_shape]
    constructor
    · split <;> simp
    · intro rid
      split <;> simp
  have main : (listMain s req now1 now2).queries.length ≤ 3 ∧
      ∀ rid : ℕ, Query.perRideEvents rid ∉ (listMain s req now1 now2).queries := by
    unfold listMain
    split
    · exact key _ _ _ _
    · simp
  unfold processRequest
  split
  · simp only [listRide]
    split
    · split
      · split
        · simp
        · exact main
      · simp
    · exact main
  · simp

/-- Witness for C2: the bound instantiated at the sample store. -/
theorem C2_witness :
    (processRequest sampleStore plainReq 0 0).queries.length ≤ 3 ∧
    ∀ rid : ℕ,
      Query.perRideEvents rid ∉ (processRequest sampleStore plainReq 0 0).queries :=
  C2_bounded_round_trips sampleStore plainReq 0 0

/-- C10: the listing path never writes: the store after any request is
the store before it. -/
theorem C10_read_only (s : Store) (req : Request) (now1 now2 : ℤ) :
    (processRequest s req now1 now2).store = s := by
  simp only [processRequest, listRide, listMain]
  repeat' split
  all_goals rfl

/-- C6 counterexample: on a request whose two clock reads differ by one
second, the threshold computed for the windowed prefetch query differs
from the threshold computed for the serializer context, although the spec
says a single per-request value is used for both. -/
theorem C6_counterexample :
    (processRequest sampleStore plainReq 0 1).threshold_qs
      ≠ (processRequest sampleStore plainReq 0 1).threshold_ctx ∧
    ∃ env, (processRequest sampleStore plainReq 0 1).response = .ok env :=
  ⟨by decide, ⟨_, rfl⟩⟩

/-- C6 (amended): the threshold is computed twice — once in
`get_queryset` for the windowed query and once in `list` for the
serializer context — but on the paginated list path the fallback is never
invoked, so the response depends only on the first clock read and the
event window is consistent within a single response. -/
theorem C6_amended_single_window (s : Store) (req : Request)
    (now1 now2 now2' : ℤ) :
    (processRequest s req now1 now2).response
      = (processRequest s req now1 now2').response := by
  unfold processRequest
  split
  · simp only [listRide]
    split
    · split
      · split
        · rfl
        · exact listMain_response_ctx_irrelevant s req now1 now2 now2'
      · rfl
    · exact listMain_response_ctx_irrelevant s req now1 now2 now2'
  · rfl

/-- C8: the access guard allows a request exactly when the caller is
present (authenticated) with role `admin`; a caller-less request is
answered 401, an authenticated caller with a different role 403, and the
two denial signals are distinct. -/
theorem C8_access_guard (s : Store) (req : Request) (now1 now2 : ℤ) :
    (has_permission req.user = true
      ↔ ∃ u, req.user = some u ∧ u.role = "admin") ∧
    (req.user = none →
      (processRequest s req now1 now2).response = .unauthorized) ∧
    (∀ u, req.user = some u → u.role ≠ "admin" →
      (processRequest s req now1 now2).response = .forbidden) ∧
    Response.unauthorized ≠ Response.forbidden := by
  refine ⟨?_, ?_, ?_, by simp⟩
  · cases hu : req.user with
    | none => simp [has_permission, hu]
    | some u => simp [has_permission, hu]
  · intro hu
    simp [processRequest, has_permission, hu]
  · intro u hu hrole
    simp [processRequest, has_permission, hu, hrole]

/-- Witness for C8: the anonymous request gets 401, the non-admin rider
gets 403, at the sample store. -/
theorem C8_witness :
    (processRequest sampleStore { user := none, params := [] } 0 0).response
        = .unauthorized ∧
    (processRequest sampleStore { user := some riderUser, params := [] } 0 0).response
        = .forbidden :=
  ⟨(C8_access_guard sampleStore { user := none, params := [] } 0 0).2.1 rfl,
   (C8_access_guard sampleStore { user := some riderUser, params := [] } 0 0).2.2.1
     riderUser rfl (by decide)⟩

/-- C3 counterexample: the two sample rides share one `pickup_time` and
are stored as [id 2, id 1]; under `ordering=pickup_time` the page comes
back as [2, 1] — the ordering filter replaced the trailing
`order_by('id_ride')` instead of appending a tie-break, so rows are not
secondarily ordered by ride identifier ascending. -/
theorem C3_counterexample :
    rideFar.pickup_time = rideNear.pickup_time ∧
    rideFar.id_ride = 2 ∧ rideNear.id_ride = 1 ∧
    ∃ env,
      (processRequest sampleStore pickupOrderingReq 0 0).response = .ok env ∧
      env.results.map RideOut.id_ride = [2, 1] :=
  ⟨rfl, rfl, rfl, _, rfl, by decide⟩

/-- C3 (amended): the id ordering is only the default: a recognized
`ordering` parameter replaces the key list outright (no id tie-break is
appended), and only when no ordering is requested are pages ordered by
ride identifier ascending. -/
theorem C3_tiebreak_amended (s : Store) (req : Request) (now1 now2 : ℤ) :
    (req.getParam "ordering" = some "pickup_time" →
      (filter_queryset req (get_queryset req now1)).orderKeys
        = [OrderKey.pickup_time_asc]) ∧
    (req.getParam "ordering" = none →
      ∀ env, (processRequest s req now1 now2).response = .ok env →
        env.results.Pairwise fun x y => x.id_ride ≤ y.id_ride) := by
  constructor
  · intro hord
    exact filter_queryset_orderKeys_of req _ hord (by decide) (by decide)
  · intro hord env hok
    obtain ⟨-, page, size, -, -, henv⟩ := processRequest_ok hok
    subst henv
    have hkeys : (filter_queryset req (get_queryset req now1)).orderKeys
        = [OrderKey.id_ride] :=
      filter_queryset_orderKeys_default req _ hord
    refine results_pairwise _ _ _ _ _ ?_
    intro a b hab
    rw [hkeys, lexLe_single] at hab
    simp only [keyLe, decide_eq_true_eq] at hab
    simpa [serializeRide_fst_id_ride] using hab

/-- Witness for C3 (amended): ordering replacement at the pickup-time
request, id-ordered page at the plain request. -/
theorem C3_witness :
    (filter_queryset pickupOrderingReq (get_queryset pickupOrderingReq 0)).orderKeys
        = [OrderKey.pickup_time_asc] ∧
    ∃ env, (processRequest sampleStore plainReq 0 0).response = .ok env ∧
      env.results.Pairwise fun x y => x.id_ride ≤ y.id_ride :=
  ⟨(C3_tiebreak_amended sampleStore pickupOrderingReq 0 0).1 rfl,
   _, rfl, (C3_tiebreak_amended sampleStore plainReq 0 0).2 rfl _ rfl⟩

/-- C4 counterexample: (i) a request with unparseable `lat` but no
distance ordering is answered 200, not 400 — the coordinate check only
runs when the ordering mentions `distance`; (ii) even with distance
ordering, `lat=inf` is accepted although it is not a finite real
number. -/
theorem C4_counterexample :
    (∃ env, (processRequest sampleStore malformedLatReq 0 0).response = .ok env) ∧
    (∃ env, (processRequest sampleStore infLatReq 0 0).response = .ok env) :=
  ⟨⟨_, rfl⟩, ⟨_, rfl⟩⟩

/-- C4 (amended): only when the `ordering` value contains the substring
`distance` does validation run, before any store access: absent `lat` or
`lng` fails 400 MissingCoordinates, and present values that `float()`
cannot parse (it does accept infinities and NaN) fail 400
InvalidCoordinates. -/
theorem C4_validation_amended (s : Store) (req : Request) (now1 now2 : ℤ)
    (hperm : has_permission req.user = true)
    (hord : strContains ((req.getParam "ordering").getD "") "distance" = true) :
    (((req.getParam "lat").isNone || (req.getParam "lng").isNone) = true →
      (processRequest s req now1 now2).response = .badRequest missingCoordsError ∧
      (processRequest s req now1 now2).queries = []) ∧
    (∀ la lb, req.getParam "lat" = some la → req.getParam "lng" = some lb →
      ((pyFloat la).isNone || (pyFloat lb).isNone) = true →
      (processRequest s req now1 now2).response = .badRequest invalidCoordsError ∧
      (processRequest s req now1 now2).queries = []) := by
  have hpr : processRequest s req now1 now2 = listRide s req now1 now2 := by
    simp [processRequest, hperm]
  rw [hpr]
  simp only [listRide, hord, if_true]
  constructor
  · intro hmiss
    cases hla : req.getParam "lat" with
    | none => exact ⟨rfl, rfl⟩
    | some la =>
      cases hlb : req.getParam "lng" with
      | none => exact ⟨rfl, rfl⟩
      | some lb => rw [hla, hlb] at hmiss; simp at hmiss
  · intro la lb hla hlb hbad
    rw [hla, hlb]
    dsimp only
    rw [if_pos hbad]
    exact ⟨rfl, rfl⟩

/-- Witness for C4 (amended): missing coordinates and unparseable
coordinates under distance ordering, at the sample store. -/
theorem C4_witness :
    ((processRequest sampleStore distanceNoCoordsReq 0 0).response
        = .badRequest missingCoordsError ∧
      (processRequest sampleStore distanceNoCoordsReq 0 0).queries = []) ∧
    ((processRequest sampleStore distanceBadCoordsReq 0 0).response
        = .badRequest invalidCoordsError ∧
      (processRequest sampleStore distanceBadCoordsReq 0 0).queries = []) :=
  ⟨(C4_validation_amended sampleStore distanceNoCoordsReq 0 0
      (by decide) (by decide)).1 (by decide),
   (C4_validation_amended sampleStore distanceBadCoordsReq 0 0
      (by decide) (by decide)).2 "abc" "xyz" rfl rfl (by decide)⟩

/-- C5 counterexample: an unrecognized ordering value (`foo`) does not
fail with a validation error: the request succeeds with 200 and the
store is accessed. -/
theorem C5_counterexample :
    (∃ env,
      (processRequest sampleStore unknownOrderingReq 0 0).response = .ok env) ∧
    (processRequest sampleStore unknownOrderingReq 0 0).queries ≠ [] :=
  ⟨⟨_, rfl⟩, by decide⟩

/-- C5 (amended): an `ordering` value none of whose comma-separated terms
is recognized is silently dropped by the ordering filter: the query keeps
its default id ordering and the request succeeds with 200 — except that
values containing the substring `distance` still trigger coordinate
validation first. -/
theorem C5_unrecognized_ordering_amended (s : Store) (req : Request)
    (now1 now2 : ℤ) (o : String)
    (hperm : has_permission req.user = true)
    (hord : req.getParam "ordering" = some o)
    (hinv : ((splitOnComma o.toList).map trimWs).filterMap parseOrderTerm = [])
    (hnd : strContains o "distance" = false)
    (hpg : req.getParam "page" = none)
    (hps : req.getParam "page_size" = none) :
    (filter_queryset req (get_queryset req now1)).orderKeys
        = [OrderKey.id_ride] ∧
    ∃ env, (processRequest s req now1 now2).response = .ok env := by
  constructor
  · unfold filter_queryset orderingFilter
    rw [hord]
    dsimp only
    by_cases ho : o = ""
    · rw [if_pos ho]
      exact (djangoFilterBackend_untouched req _).2.2
    · rw [if_neg ho, hinv]
      exact (djangoFilterBackend_untouched req _).2.2
  · have hpr : processRequest s req now1 now2 = listRide s req now1 now2 := by
      simp [processRequest, hperm]
    rw [hpr]
    simp only [listRide, hord, Option.getD_some, hnd]
    simp only [Bool.false_eq_true, if_false]
    unfold listMain parsePageParam parsePageSizeParam
    rw [hpg, hps]
    exact ⟨_, rfl⟩

/-- Witness for C5 (amended) at `ordering=foo`. -/
theorem C5_witness :
    (filter_queryset unknownOrderingReq (get_queryset unknownOrderingReq 0)).orderKeys
        = [OrderKey.id_ride] ∧
    ∃ env,
      (processRequest sampleStore unknownOrderingReq 0 0).response = .ok env :=
  C5_unrecognized_ordering_amended sampleStore unknownOrderingReq 0 0 "foo"
    (by decide) rfl (by decide) (by decide) rfl rfl

/-- C9 counterexample: the exposed filter parameter is `rider__email`;
a request using the name `rider_email` is ignored — the page still
contains rides whose rider's email differs from the requested value. -/
theorem C9_counterexample :
    ∃ env,
      (processRequest sampleStore wrongEmailFilterReq 0 0).response = .ok env ∧
      env.results.map (fun ro => ro.rider.map UserOut.email)
        = [some "rider@example.com", some "rider@example.com"] :=
  ⟨_, rfl, by decide⟩

/-- C9 (amended): the exact-match filter parameter is `rider__email`
(django-filter's relation path): with it, every ride of the result has a
rider whose email equals the requested value; rides with a null rider or
a different email are excluded. -/
theorem C9_rider_email_amended (s : Store) (req : Request) (now1 now2 : ℤ)
    (v : String) (env : PageEnvelope)
    (hre : req.getParam "rider__email" = some v) (hv : v ≠ "")
    (hok : (processRequest s req now1 now2).response = .ok env) :
    ∀ ro ∈ env.results, ∃ uo, ro.rider = some uo ∧ uo.email = v := by
  obtain ⟨-, page, size, -, -, henv⟩ := processRequest_ok hok
  subst henv
  intro ro hro
  obtain ⟨r, -, hpass, hser⟩ := results_mem hro
  have hfilter : (filter_queryset req (get_queryset req now1)).riderEmailFilter
      = some v := by
    rw [filter_queryset_riderEmailFilter, hre]
    exact if_neg hv
  rw [ridePasses, hfilter, Bool.and_eq_true] at hpass
  obtain ⟨-, hpass⟩ := hpass
  cases hrid : r.rider with
  | none => rw [hrid] at hpass; simp at hpass
  | some uid =>
    rw [hrid] at hpass
    dsimp only at hpass
    cases hfind : findUser s uid with
    | none => rw [hfind] at hpass; simp at hpass
    | some u =>
      rw [hfind] at hpass
      simp only [beq_iff_eq] at hpass
      refine ⟨userOut u, ?_, hpass⟩
      subst hser
      show ((r.rider.bind (findUser s)).map userOut) = some (userOut u)
      rw [hrid, Option.some_bind, hfind]
      rfl

/-- Witness for C9 (amended): filtering by the real parameter name at the
sample store. -/
theorem C9_witness :
    ∃ env, (processRequest sampleStore riderEmailReq 0 0).response = .ok env ∧
      ∀ ro ∈ env.results,
        ∃ uo, ro.rider = some uo ∧ uo.email = "rider@example.com" :=
  ⟨_, rfl, C9_rider_email_amended sampleStore riderEmailReq 0 0
    "rider@example.com" _ rfl (by decide) rfl⟩

/-- C7: with parseable finite coordinates the derived distance is the
squared planar distance, and `ordering=distance` answers 200 with the
page sorted by that measure — the nearest stored ride first. -/
theorem C7_distance_annotation_and_order (s : Store) (req : Request)
    (now1 now2 : ℤ) (sla slb : String) (a b : ℚ)
    (hperm : has_permission req.user = true)
    (hord : req.getParam "ordering" = some "distance")
    (hla : req.getParam "lat" = some sla) (hlb : req.getParam "lng" = some slb)
    (hpa : pyFloat sla = some (.finite a)) (hpb : pyFloat slb = some (.finite b))
    (hst : req.getParam "status" = none) (hre : req.getParam "rider__email" = none)
    (hpg : req.getParam "page" = none) (hps : req.getParam "page_size" = none) :
    (∀ r : Ride, rideDistance (some (.finite a, .finite b)) r
        = .finite ((r.pickup_latitude - a) ^ 2 + (r.pickup_longitude - b) ^ 2)) ∧
    ∃ env, (processRequest s req now1 now2).response = .ok env ∧
      env.results.Pairwise (fun x y =>
        (x.pickup_latitude - a) ^ 2 + (x.pickup_longitude - b) ^ 2
          ≤ (y.pickup_latitude - a) ^ 2 + (y.pickup_longitude - b) ^ 2) ∧
      ∀ ro, env.results.head? = some ro → ∀ r ∈ s.rides,
        (ro.pickup_latitude - a) ^ 2 + (ro.pickup_longitude - b) ^ 2
          ≤ (r.pickup_latitude - a) ^ 2 + (r.pickup_longitude - b) ^ 2 := by
  have hdist : ∀ r : Ride, rideDistance (some (.finite a, .finite b)) r
      = .finite ((r.pickup_latitude - a) ^ 2 + (r.pickup_longitude - b) ^ 2) := by
    intro r
    simp only [rideDistance, PyFloat.sub, PyFloat.mul, PyFloat.add]
    congr 1
    ring
  refine ⟨hdist, ?_⟩
  have hdp : (filter_queryset req (get_queryset req now1)).distParams
      = some (.finite a, .finite b) := by
    rw [filter_queryset_distParams]
    simp [get_queryset, hla, hlb, hpa, hpb]
  have hkeys : (filter_queryset req (get_queryset req now1)).orderKeys
      = [OrderKey.distance_asc] :=
    filter_queryset_orderKeys_of req _ hord (by decide) (by decide)
  have hsf : (filter_queryset req (get_queryset req now1)).statusFilter = none := by
    rw [filter_queryset_statusFilter_none req _ hst]; rfl
  have href : (filter_queryset req (get_queryset req now1)).riderEmailFilter
      = none := by
    rw [filter_queryset_riderEmailFilter, hre]
    rfl
  have hno : ((pyFloat sla).isNone || (pyFloat slb).isNone) = false := by
    rw [hpa, hpb]; rfl
  have hresp : (processRequest s req now1 now2).response
      = .ok (buildEnvelope s (filter_queryset req (get_queryset req now1))
          (get_todays_threshold now2) 1 20) := by
    have hpr : processRequest s req now1 now2 = listRide s req now1 now2 := by
      simp [processRequest, hperm]
    rw [hpr]
    simp only [listRide, hord, Option.getD_some]
    rw [if_pos (by decide : strContains "distance" "distance" = true), hla, hlb]
    dsimp only
    rw [if_neg (by rw [hno]; exact Bool.false_ne_true)]
    unfold listMain parsePageParam parsePageSizeParam
    rw [hpg, hps]
  -- the comparison along the sort order, in terms of the formula
  have hcmp : ∀ x y : Ride,
      lexLe (filter_queryset req (get_queryset req now1))
        (filter_queryset req (get_queryset req now1)).orderKeys x y = true →
      (x.pickup_latitude - a) ^ 2 + (x.pickup_longitude - b) ^ 2
        ≤ (y.pickup_latitude - a) ^ 2 + (y.pickup_longitude - b) ^ 2 := by
    intro x y hxy
    rw [hkeys, lexLe_single] at hxy
    simp only [keyLe, hdp, hdist, PyFloat.le, decide_eq_true_eq] at hxy
    exact hxy
  refine ⟨_, hresp, ?_, ?_⟩
  · refine results_pairwise _ _ _ _ _ ?_
    intro x y hxy
    simpa [serializeRide_fst_latitude, serializeRide_fst_longitude]
      using hcmp x y hxy
  · intro ro hro r hr
    have hl : r ∈ evalRideQuerySet s (filter_queryset req (get_queryset req now1)) := by
      refine (perm_evalRideQuerySet s _).mem_iff.mpr ?_
      rw [List.mem_filter]
      exact ⟨hr, ridePasses_of_no_filters s _ r hsf href⟩
    have hro' : ((pageOf (evalRideQuerySet s
        (filter_queryset req (get_queryset req now1))) 1 20).map fun r' =>
        (serializeRide s (some (get_todays_threshold now2)) r'
          (some (prefetchedEvents s
            (filter_queryset req (get_queryset req now1)).eventThreshold r'))).1).head?
        = some ro := hro
    rw [List.head?_map] at hro'
    have hpageof : pageOf (evalRideQuerySet s
        (filter_queryset req (get_queryset req now1))) 1 20
        = (evalRideQuerySet s (filter_queryset req (get_queryset req now1))).take 20 := rfl
    rw [hpageof, head?_take_of_pos (by norm_num)] at hro'
    cases hL : evalRideQuerySet s (filter_queryset req (get_queryset req now1)) with
    | nil => rw [hL] at hro'; simp at hro'
    | cons r0 rest =>
      rw [hL] at hro'
      simp only [List.head?_cons, Option.map_some'] at hro'
      have hromap : ro = (serializeRide s (some (get_todays_threshold now2)) r0
          (some (prefetchedEvents s
            (filter_queryset req (get_queryset req now1)).eventThreshold r0))).1 :=
        (Option.some.inj hro').symm
      have hs' := sorted_evalRideQuerySet s (filter_queryset req (get_queryset req now1))
      rw [hL] at hs'
      have hmin : ∀ r' ∈ evalRideQuerySet s (filter_queryset req (get_queryset req now1)),
          lexLe (filter_queryset req (get_queryset req now1))
            (filter_queryset req (get_queryset req now1)).orderKeys r0 r' = true := by
        intro r' hr'
        rw [hL] at hr'
        rcases List.mem_cons.mp hr' with h | h
        · subst h
          exact (lexLe_total _ _ r' r').elim id id
        · exact (List.pairwise_cons.mp hs').1 r' h
      have hle := hcmp r0 r (hmin r hl)
      rw [hromap]
      simpa [serializeRide_fst_latitude, serializeRide_fst_longitude] using hle

/-- Witness for C7: `ordering=distance&lat=0&lng=0` at the sample store. -/
theorem C7_witness :
    (∀ r : Ride, rideDistance (some (.finite 0, .finite 0)) r
        = .finite ((r.pickup_latitude - 0) ^ 2 + (r.pickup_longitude - 0) ^ 2)) ∧
    ∃ env, (processRequest sampleStore distanceOriginReq 0 0).response = .ok env ∧
      env.results.Pairwise (fun x y =>
        (x.pickup_latitude - 0) ^ 2 + (x.pickup_longitude - 0) ^ 2
          ≤ (y.pickup_latitude - 0) ^ 2 + (y.pickup_longitude - 0) ^ 2) ∧
      ∀ ro, env.results.head? = some ro → ∀ r ∈ sampleStore.rides,
        (ro.pickup_latitude - 0) ^ 2 + (ro.pickup_longitude - 0) ^ 2
          ≤ (r.pickup_latitude - 0) ^ 2 + (r.pickup_longitude - 0) ^ 2 :=
  C7_distance_annotation_and_order sampleStore distanceOriginReq 0 0 "0" "0" 0 0
    (by decide) rfl rfl rfl (by decide) (by decide) rfl rfl rfl rfl

end ManageRide
